import Mathlib

set_option autoImplicit false

/-!
# SousChef recipe transformer — verification of the validation/repair core

Shallow embedding of `app.py`: the JSON value model, the pydantic-style
schema validation of `Ingredient`, `RecipeStep` and `SousChefRecipe`
(including the `mode="before"` field/model validators and the
`mode="after"` difficulty override), the transform/critique/repair loop
with its routing function `should_repair_or_finalize`, and the UI click
guard for empty input.  LLM calls are opaque oracles.
-/

namespace SousChef

/-- JSON-like values as handed to the validators by the structured-output
layer.  Python floats are modelled as rationals. -/
inductive Value where
  | null
  | bool (b : Bool)
  | int (n : Int)
  | num (q : Rat)
  | str (s : String)
  | arr (xs : List Value)
  | obj (fields : List (String × Value))

/-- First-match lookup in a string-keyed association list, modelling
`dict[key]` access (Python dict keys are unique, so first match is the
only match). -/
def dictGet : List (String × Value) → String → Option Value
  | [], _ => none
  | (k, v) :: rest, key => if k == key then some v else dictGet rest key

/-- `key in d` for a Python dict. -/
def dictContains (d : List (String × Value)) (key : String) : Bool :=
  (dictGet d key).isSome

/-- `d.pop(key)`: remove the binding of `key`.  Python dicts cannot hold
duplicate keys, so removing every binding of `key` is the same operation. -/
def dictErase (d : List (String × Value)) (key : String) : List (String × Value) :=
  d.filter (fun p => !(p.1 == key))

/-- `d[key] = val`: replace the existing binding or append a new one. -/
def dictSet : List (String × Value) → String → Value → List (String × Value)
  | [], key, val => [(key, val)]
  | (k, v) :: rest, key, val =>
    if k == key then (k, val) :: rest else (k, v) :: dictSet rest key val

/-- First-match lookup in a string-to-string table (`mapping.get v`). -/
def lookupStr : List (String × String) → String → Option String
  | [], _ => none
  | (k, v) :: rest, key => if k == key then some v else lookupStr rest key

/-- The `workplace` synonym table from `RecipeStep.fix_workplace`. -/
def workplace_mapping : List (String × String) :=
  [("Plate", "Bowl"),
   ("Wok", "Stove"),
   ("Pot", "Stove"),
   ("Stock pot", "Stove"),
   ("Stock Pot", "Stove"),
   ("Sink", "Bowl"),
   ("Counter", "Cutting board"),
   ("Table", "Cutting board"),
   ("Grill", "Stove"),
   ("Microwave", "Oven"),
   ("Chopping board", "Cutting board"),
   ("Chopping Board", "Cutting board"),
   ("Toaster", "Stove"),
   ("Worktop", "Cutting board"),
   ("Kitchen counter", "Cutting board"),
   ("Loaf pan", "Oven"),
   ("Loaf Pan", "Oven")]

/-- The `difficulty` synonym table from `SousChefRecipe.fix_difficulty`. -/
def difficulty_mapping : List (String × String) :=
  [("Moderate", "Medium"),
   ("Hard", "Intermediate"),
   ("Advanced", "Intermediate"),
   ("Beginner", "Easy"),
   ("Simple", "Easy")]

/-- `RecipeStep.fix_workplace`: `mapping.get(v, v)`.  A non-string value is
not a key of the table, so it passes through unchanged. -/
def fix_workplace (v : Value) : Value :=
  match v with
  | .str s => .str ((lookupStr workplace_mapping s).getD s)
  | other => other

/-- `SousChefRecipe.fix_difficulty`: `mapping.get(v, v)`. -/
def fix_difficulty (v : Value) : Value :=
  match v with
  | .str s => .str ((lookupStr difficulty_mapping s).getD s)
  | other => other

/-- The closed `workplace` enum (`Literal[...]` in the source). -/
inductive Workplace where
  | Stove
  | Oven
  | Blender
  | CuttingBoard
  | Bowl
  | Pan
deriving DecidableEq, Repr

def Workplace.toStr : Workplace → String
  | .Stove => "Stove"
  | .Oven => "Oven"
  | .Blender => "Blender"
  | .CuttingBoard => "Cutting board"
  | .Bowl => "Bowl"
  | .Pan => "Pan"

/-- Literal-enum validation for `workplace` values. -/
def parseWorkplace (s : String) : Option Workplace :=
  if s == "Stove" then some .Stove
  else if s == "Oven" then some .Oven
  else if s == "Blender" then some .Blender
  else if s == "Cutting board" then some .CuttingBoard
  else if s == "Bowl" then some .Bowl
  else if s == "Pan" then some .Pan
  else none

/-- The closed `difficulty` enum (`Literal["Easy","Medium","Intermediate"]`). -/
inductive Difficulty where
  | Easy
  | Medium
  | Intermediate
deriving DecidableEq, Repr

def Difficulty.toStr : Difficulty → String
  | .Easy => "Easy"
  | .Medium => "Medium"
  | .Intermediate => "Intermediate"

/-- Literal-enum validation for `difficulty` values. -/
def parseDifficulty (s : String) : Option Difficulty :=
  if s == "Easy" then some .Easy
  else if s == "Medium" then some .Medium
  else if s == "Intermediate" then some .Intermediate
  else none

/-- A pydantic `str` field: accepts exactly strings. -/
def validateStr : Value → Except String String
  | .str s => .ok s
  | _ => .error "expected a string"

/-- A pydantic `int` field: accepts integers, and floats with no
fractional part.  (Numeric-string coercion is not exercised here and is
not modelled.) -/
def validateInt : Value → Except String Int
  | .int n => .ok n
  | .num q => if q.den == 1 then .ok q.num else .error "expected an integer"
  | _ => .error "expected an integer"

/-- A pydantic `float` field: accepts integers and floats. -/
def validateFloat : Value → Except String Rat
  | .int n => .ok (n : Rat)
  | .num q => .ok q
  | _ => .error "expected a number"

/-- A pydantic `bool` field. -/
def validateBool : Value → Except String Bool
  | .bool b => .ok b
  | _ => .error "expected a boolean"

/-- An `Optional[...]` field value: `null` becomes `None`. -/
def decodeOpt {α : Type} (f : Value → Except String α) : Value → Except String (Option α)
  | .null => .ok none
  | w => (f w).map some

/-- A required field: missing keys fail validation. -/
def requireField {α : Type} (f : Value → Except String α)
    (d : List (String × Value)) (key : String) : Except String α :=
  match dictGet d key with
  | none => .error ("missing field " ++ key)
  | some w => f w

/-- An `Optional[...] = dflt` field: a missing key takes the default,
`null` becomes `None`. -/
def optionalField {α : Type} (f : Value → Except String α) (dflt : Option α)
    (d : List (String × Value)) (key : String) : Except String (Option α) :=
  match dictGet d key with
  | none => .ok dflt
  | some w => decodeOpt f w

/-- Element-wise validation of a `List[...]` field. -/
def validateEach {α : Type} (f : Value → Except String α) : List Value → Except String (List α)
  | [] => .ok []
  | v :: vs => do
    let a ← f v
    let as ← validateEach f vs
    .ok (a :: as)

def validateList {α : Type} (f : Value → Except String α) : Value → Except String (List α)
  | .arr xs => validateEach f xs
  | _ => .error "expected a list"

/-- The `Ingredient` model. -/
structure Ingredient where
  name_en : String
  name_nl : String
  quantity : Option String
deriving DecidableEq, Repr

/-- Validation of one `Ingredient` (`quantity: Optional[str] = "to taste"`). -/
def Ingredient.validate (v : Value) : Except String Ingredient :=
  match v with
  | .obj d => do
    let ne ← requireField validateStr d "name_en"
    let nn ← requireField validateStr d "name_nl"
    let q ← optionalField validateStr (some "to taste") d "quantity"
    .ok { name_en := ne, name_nl := nn, quantity := q }
  | _ => .error "expected an object"

/-- The `RecipeStep` model. -/
structure RecipeStep where
  display_name_en : String
  display_name_nl : String
  action_en : String
  action_nl : String
  instructions_en : String
  instructions_nl : String
  workplace : Workplace
  has_timer : Bool
  timer_minutes : Option Rat
  is_first_appearance : Bool
deriving DecidableEq, Repr

/-- The `workplace` field: the `mode="before"` synonym remap runs first,
then the `Literal` enum check. -/
def validateWorkplaceField (v : Value) : Except String Workplace :=
  match fix_workplace v with
  | .str s =>
    match parseWorkplace s with
    | some w => .ok w
    | none => .error "workplace must be one of the allowed values"
  | _ => .error "workplace must be a string"

/-- Validation of one `RecipeStep`. -/
def RecipeStep.validate (v : Value) : Except String RecipeStep :=
  match v with
  | .obj d => do
    let dne ← requireField validateStr d "display_name_en"
    let dnn ← requireField validateStr d "display_name_nl"
    let ae ← requireField validateStr d "action_en"
    let an ← requireField validateStr d "action_nl"
    let ie ← requireField validateStr d "instructions_en"
    let inl ← requireField validateStr d "instructions_nl"
    let wp ← requireField validateWorkplaceField d "workplace"
    let ht ← requireField validateBool d "has_timer"
    let tm ← optionalField validateFloat none d "timer_minutes"
    let fa ← requireField validateBool d "is_first_appearance"
    .ok { display_name_en := dne, display_name_nl := dnn, action_en := ae,
          action_nl := an, instructions_en := ie, instructions_nl := inl,
          workplace := wp, has_timer := ht, timer_minutes := tm,
          is_first_appearance := fa }
  | _ => .error "expected an object"

/-- The `SousChefRecipe` model. -/
structure SousChefRecipe where
  generic_name_en : String
  generic_name_nl : String
  recipe_name_en : String
  recipe_name_nl : String
  description_en : String
  description_nl : String
  difficulty : Difficulty
  servings : Int
  prep_time_minutes : Int
  cook_time_minutes : Int
  calories_per_person : Option Int
  protein_g : Option Rat
  carbs_g : Option Rat
  fat_g : Option Rat
  ingredients : List Ingredient
  steps : List RecipeStep
deriving DecidableEq, Repr

/-- The alias table of `SousChefRecipe.fix_field_names`. -/
def renames : List (String × String) :=
  [("calories_per_serving", "calories_per_person"),
   ("protein_g_per_serving", "protein_g"),
   ("carbs_g_per_serving", "carbs_g"),
   ("fat_g_per_serving", "fat_g")]

/-- One iteration of the rename loop:
`if old in v and new not in v: v[new] = v.pop(old)`.
Under the guard `old` is present, so `pop` cannot fail; its value is read
with a default that is never used. -/
def renameStep (d : List (String × Value)) (old new : String) : List (String × Value) :=
  if dictContains d old && !(dictContains d new) then
    dictSet (dictErase d old) new ((dictGet d old).getD .null)
  else d

/-- `SousChefRecipe.fix_field_names` (`model_validator(mode="before")`). -/
def fix_field_names (d : List (String × Value)) : List (String × Value) :=
  renames.foldl (fun acc p => renameStep acc p.1 p.2) d

/-- The `difficulty` field: the `mode="before"` synonym remap runs first,
then the `Literal` enum check. -/
def validateDifficultyField (v : Value) : Except String Difficulty :=
  match fix_difficulty v with
  | .str s =>
    match parseDifficulty s with
    | some dd => .ok dd
    | none => .error "difficulty must be one of the allowed values"
  | _ => .error "difficulty must be a string"

/-- `SousChefRecipe.fix_difficulty_by_steps` (`model_validator(mode="after")`):
the rule-based difficulty override from the step count. -/
def fix_difficulty_by_steps (r : SousChefRecipe) : SousChefRecipe :=
  let step_count := r.steps.length
  if step_count ≤ 6 then { r with difficulty := .Easy }
  else if step_count ≤ 11 then { r with difficulty := .Medium }
  else { r with difficulty := .Intermediate }

/-- Field-level validation of a `SousChefRecipe`: the `mode="before"`
rename pass, then every field against its declared type. -/
def SousChefRecipe.validate_fields (v : Value) : Except String SousChefRecipe :=
  match v with
  | .obj d0 => do
    let d := fix_field_names d0
    let gne ← requireField validateStr d "generic_name_en"
    let gnn ← requireField validateStr d "generic_name_nl"
    let rne ← requireField validateStr d "recipe_name_en"
    let rnn ← requireField validateStr d "recipe_name_nl"
    let de ← requireField validateStr d "description_en"
    let dn ← requireField validateStr d "description_nl"
    let diff ← requireField validateDifficultyField d "difficulty"
    let srv ← requireField validateInt d "servings"
    let ptm ← requireField validateInt d "prep_time_minutes"
    let ctm ← requireField validateInt d "cook_time_minutes"
    let cal ← optionalField validateInt (some 0) d "calories_per_person"
    let pro ← optionalField validateFloat (some 0) d "protein_g"
    let car ← optionalField validateFloat (some 0) d "carbs_g"
    let ft ← optionalField validateFloat (some 0) d "fat_g"
    let ings ← requireField (validateList Ingredient.validate) d "ingredients"
    let stps ← requireField (validateList RecipeStep.validate) d "steps"
    .ok { generic_name_en := gne, generic_name_nl := gnn,
          recipe_name_en := rne, recipe_name_nl := rnn,
          description_en := de, description_nl := dn,
          difficulty := diff, servings := srv,
          prep_time_minutes := ptm, cook_time_minutes := ctm,
          calories_per_person := cal, protein_g := pro,
          carbs_g := car, fat_g := ft,
          ingredients := ings, steps := stps }
  | _ => .error "expected an object"

/-- Full validation of a `SousChefRecipe`: field validation followed by the
`mode="after"` difficulty override. -/
def SousChefRecipe.validate (v : Value) : Except String SousChefRecipe :=
  (SousChefRecipe.validate_fields v).map fix_difficulty_by_steps

/-! ## Serialization (`model_dump`) -/

def dumpOptStr : Option String → Value
  | none => .null
  | some s => .str s

def dumpOptInt : Option Int → Value
  | none => .null
  | some n => .int n

def dumpOptRat : Option Rat → Value
  | none => .null
  | some q => .num q

def Ingredient.model_dump (i : Ingredient) : Value :=
  .obj [("name_en", .str i.name_en),
        ("name_nl", .str i.name_nl),
        ("quantity", dumpOptStr i.quantity)]

def RecipeStep.model_dump (s : RecipeStep) : Value :=
  .obj [("display_name_en", .str s.display_name_en),
        ("display_name_nl", .str s.display_name_nl),
        ("action_en", .str s.action_en),
        ("action_nl", .str s.action_nl),
        ("instructions_en", .str s.instructions_en),
        ("instructions_nl", .str s.instructions_nl),
        ("workplace", .str s.workplace.toStr),
        ("has_timer", .bool s.has_timer),
        ("timer_minutes", dumpOptRat s.timer_minutes),
        ("is_first_appearance", .bool s.is_first_appearance)]

/-- `recipe.model_dump()` followed by `json.dumps`: the JSON tree of a
recipe record (text-level printing and re-parsing of the tree is the
identity and is elided). -/
def SousChefRecipe.model_dump (r : SousChefRecipe) : Value :=
  .obj [("generic_name_en", .str r.generic_name_en),
        ("generic_name_nl", .str r.generic_name_nl),
        ("recipe_name_en", .str r.recipe_name_en),
        ("recipe_name_nl", .str r.recipe_name_nl),
        ("description_en", .str r.description_en),
        ("description_nl", .str r.description_nl),
        ("difficulty", .str r.difficulty.toStr),
        ("servings", .int r.servings),
        ("prep_time_minutes", .int r.prep_time_minutes),
        ("cook_time_minutes", .int r.cook_time_minutes),
        ("calories_per_person", dumpOptInt r.calories_per_person),
        ("protein_g", dumpOptRat r.protein_g),
        ("carbs_g", dumpOptRat r.carbs_g),
        ("fat_g", dumpOptRat r.fat_g),
        ("ingredients", .arr (r.ingredients.map Ingredient.model_dump)),
        ("steps", .arr (r.steps.map RecipeStep.model_dump))]

/-! ## The workflow controller (transform/critique/repair loop) -/

def isPrefixOfL : List Char → List Char → Bool
  | [], _ => true
  | _ :: _, [] => false
  | a :: as, b :: bs => a == b && isPrefixOfL as bs

/-- Substring search on character lists. -/
def containsSub (needle : List Char) : List Char → Bool
  | [] => isPrefixOfL needle []
  | c :: t => isPrefixOfL needle (c :: t) || containsSub needle t

/-- Python's `needle in hay` substring test on strings. -/
def strContains (hay needle : String) : Bool :=
  containsSub needle.toList hay.toList

def approvedToken : String := "APPROVED"

/-- `should_repair_or_finalize`: the routing function after Critique,
a pure function of the critique text and the attempt counter. -/
def should_repair_or_finalize (critique : String) (attempts : Nat) : String :=
  if strContains critique approvedToken then "finalize"
  else if attempts ≥ 2 then "finalize"
  else "repair"

/-- The LLM client as an opaque oracle: `transform` and `repair` are the
structured-output calls (they return schema-conforming records; provider
or schema failures propagate and produce no run at all), `critique` is
the free-text call. -/
structure LLMOracle where
  transform : String → SousChefRecipe
  critique : SousChefRecipe → String
  repair : SousChefRecipe → String → SousChefRecipe

/-- The observable outcome of one run of the compiled graph. -/
structure RunResult where
  final_recipe : SousChefRecipe
  attempts : Nat
  generation_calls : Nat
deriving Repr

/-- The critique/repair cycle of the graph: critique the candidate, route
with `should_repair_or_finalize`, either repair (incrementing the attempt
counter, as `repair_node` does) and go back to critique, or finalize with
the current candidate (`finalize_node`).  The recursion terminates
because the router only answers `"repair"` while the attempt counter is
below 2. -/
def critiqueLoop (o : LLMOracle) (cand : SousChefRecipe) (attempts gens : Nat) : RunResult :=
  let c := o.critique cand
  if h : should_repair_or_finalize c attempts = "repair" then
    critiqueLoop o (o.repair cand c) (attempts + 1) (gens + 1)
  else
    { final_recipe := cand, attempts := attempts, generation_calls := gens }
termination_by 3 - attempts
decreasing_by
  simp only [should_repair_or_finalize] at h
  split_ifs at h with h1 h2
  · exact absurd h (by decide)
  · exact absurd h (by decide)
  · omega

/-- `agent.invoke({"raw_recipe": raw})`: transform (1 structured
generation call, attempt counter reset to 0), then the critique/repair
cycle. -/
def runAgent (o : LLMOracle) (raw_recipe : String) : RunResult :=
  critiqueLoop o (o.transform raw_recipe) 0 1

/-! ## The UI click handler -/

/-- What the output column shows after a click. -/
inductive UiOutcome where
  | rendered (res : RunResult)
  | warned (msg : String)
  | idle (msg : String)
deriving Repr

/-- The branch structure around `transform_btn`: a non-empty input runs
the agent, an empty input with the button pressed only shows a warning,
otherwise the idle hint is shown.  (Python string truthiness: a string is
truthy iff non-empty.) -/
def handle_transform_click (o : LLMOracle) (transform_btn : Bool)
    (recipe_input : String) : UiOutcome :=
  if transform_btn && !(recipe_input == "") then
    .rendered (runAgent o recipe_input)
  else if transform_btn && (recipe_input == "") then
    .warned "Please paste a recipe first!"
  else
    .idle "Paste a recipe on the left and click Transform"

/-! ## Concrete sample data (for witnesses and counterexamples) -/

/-- An otherwise well-formed step record, varying in workplace and timer
fields. -/
def sampleStepRec (wp : Workplace) (ht : Bool) (tm : Option Rat) : RecipeStep :=
  { display_name_en := "Onion", display_name_nl := "Ui",
    action_en := "Peel and chop", action_nl := "Schillen en snijden",
    instructions_en := "Peel the onion and chop it.",
    instructions_nl := "Schil de ui en snijd hem.",
    workplace := wp, has_timer := ht, timer_minutes := tm,
    is_first_appearance := true }

/-- The raw-dict counterpart of `sampleStepRec`. -/
def mkStepDict (wp : Value) (ht : Bool) (timerFields : List (String × Value)) : Value :=
  .obj ([("display_name_en", .str "Onion"),
         ("display_name_nl", .str "Ui"),
         ("action_en", .str "Peel and chop"),
         ("action_nl", .str "Schillen en snijden"),
         ("instructions_en", .str "Peel the onion and chop it."),
         ("instructions_nl", .str "Schil de ui en snijd hem."),
         ("workplace", wp),
         ("has_timer", .bool ht)]
        ++ timerFields
        ++ [("is_first_appearance", .bool true)])

def sampleIngredient : Ingredient :=
  { name_en := "Onion", name_nl := "Ui", quantity := some "1 piece" }

def ingredientDict : Value :=
  .obj [("name_en", .str "Onion"), ("name_nl", .str "Ui"),
        ("quantity", .str "1 piece")]

/-- An otherwise well-formed raw recipe record, varying in the difficulty
and numeric fields and in the step list. -/
def mkRecipeDict (diff srv ptm ctm : Value) (nutrition : List (String × Value))
    (steps : List Value) : Value :=
  .obj ([("generic_name_en", .str "Chicken Rice"),
         ("generic_name_nl", .str "Kip Rijst"),
         ("recipe_name_en", .str "One-pan Chicken and Garlic Rice"),
         ("recipe_name_nl", .str "Kip met knoflookrijst"),
         ("description_en", .str "Simple and tasty."),
         ("description_nl", .str "Simpel en lekker."),
         ("difficulty", diff),
         ("servings", srv),
         ("prep_time_minutes", ptm),
         ("cook_time_minutes", ctm)]
        ++ nutrition
        ++ [("ingredients", .arr [ingredientDict]),
            ("steps", .arr steps)])

/-- The validated counterpart of `mkRecipeDict`. -/
def mkRecipeRec (diff : Difficulty) (srv ptm ctm : Int) (cal : Option Int)
    (pr cb ft : Option Rat) (stps : List RecipeStep) : SousChefRecipe :=
  { generic_name_en := "Chicken Rice", generic_name_nl := "Kip Rijst",
    recipe_name_en := "One-pan Chicken and Garlic Rice",
    recipe_name_nl := "Kip met knoflookrijst",
    description_en := "Simple and tasty.", description_nl := "Simpel en lekker.",
    difficulty := diff, servings := srv, prep_time_minutes := ptm,
    cook_time_minutes := ctm, calories_per_person := cal,
    protein_g := pr, carbs_g := cb, fat_g := ft,
    ingredients := [sampleIngredient], steps := stps }

def sampleRecipe : SousChefRecipe :=
  mkRecipeRec .Easy 4 10 25 (some 550) (some 35) (some 45) (some 18)
    [sampleStepRec .CuttingBoard false none]

/-- An LLM stand-in whose critique always approves. -/
def approvingOracle : LLMOracle :=
  { transform := fun _ => sampleRecipe,
    critique := fun _ => "Everything looks great. APPROVED",
    repair := fun r _ => r }

/-- An LLM stand-in whose critique never approves. -/
def nonApprovingOracle : LLMOracle :=
  { transform := fun _ => sampleRecipe,
    critique := fun _ => "Instructions are unclear. Add timers.",
    repair := fun r _ => r }

/-! ## Routing and loop lemmas -/

theorem route_repair_imp (c : String) (a : Nat)
    (h : should_repair_or_finalize c a = "repair") :
    strContains c approvedToken = false ∧ a < 2 := by
  simp only [should_repair_or_finalize] at h
  split_ifs at h with h1 h2
  · exact absurd h (by decide)
  · exact absurd h (by decide)
  · exact ⟨by simpa using h1, by omega⟩

theorem route_finalize_of_approved (c : String) (a : Nat)
    (h : strContains c approvedToken = true) :
    should_repair_or_finalize c a = "finalize" := by
  simp [should_repair_or_finalize, h]

theorem route_finalize_of_attempts (c : String) (a : Nat) (h : 2 ≤ a) :
    should_repair_or_finalize c a = "finalize" := by
  simp only [should_repair_or_finalize]
  split_ifs with h1 <;> rfl

theorem route_repair_of (c : String) (a : Nat)
    (h1 : strContains c approvedToken = false) (h2 : a < 2) :
    should_repair_or_finalize c a = "repair" := by
  simp only [should_repair_or_finalize]
  rw [if_neg (by simp [h1]), if_neg (by omega)]

/-- One unfolding of the critique/repair cycle. -/
theorem critiqueLoop_eq (o : LLMOracle) (cand : SousChefRecipe) (a g : Nat) :
    critiqueLoop o cand a g =
      if should_repair_or_finalize (o.critique cand) a = "repair" then
        critiqueLoop o (o.repair cand (o.critique cand)) (a + 1) (g + 1)
      else { final_recipe := cand, attempts := a, generation_calls := g } := by
  rw [critiqueLoop]
  by_cases h : should_repair_or_finalize (o.critique cand) a = "repair"
  · rw [dif_pos h, if_pos h]
  · rw [dif_neg h, if_neg h]

theorem critiqueLoop_attempts_le_aux (o : LLMOracle) :
    ∀ (k : Nat) (cand : SousChefRecipe) (a g : Nat), 3 - a ≤ k → a ≤ 2 →
      (critiqueLoop o cand a g).attempts ≤ 2 := by
  intro k
  induction k with
  | zero => intro cand a g hk ha; exfalso; omega
  | succ n ih =>
    intro cand a g hk ha
    rw [critiqueLoop_eq]
    by_cases h : should_repair_or_finalize (o.critique cand) a = "repair"
    · rw [if_pos h]
      have hlt := (route_repair_imp _ _ h).2
      exact ih _ (a + 1) (g + 1) (by omega) (by omega)
    · rw [if_neg h]
      simpa using ha

/-- Every result of the cycle started at an attempt counter ≤ 2 records at
most 2 repair attempts. -/
theorem critiqueLoop_attempts_le (o : LLMOracle) (cand : SousChefRecipe)
    (a g : Nat) (ha : a ≤ 2) : (critiqueLoop o cand a g).attempts ≤ 2 :=
  critiqueLoop_attempts_le_aux o 3 cand a g (by omega) ha

/-! ## Claim theorems: the workflow loop -/

/-- C2: when no critique response contains the token "APPROVED", the
controller performs exactly 2 repair attempts and finalizes with the last
candidate produced (the second repair's output), for a total of 3
structured generation calls; and no run whatsoever performs more than 2
repairs. -/
theorem never_approved_two_repairs (o : LLMOracle) (raw : String)
    (h : ∀ r, strContains (o.critique r) approvedToken = false) :
    runAgent o raw =
      { final_recipe :=
          o.repair (o.repair (o.transform raw) (o.critique (o.transform raw)))
            (o.critique (o.repair (o.transform raw) (o.critique (o.transform raw)))),
        attempts := 2, generation_calls := 3 } ∧
    (∀ (o2 : LLMOracle) (raw2 : String), (runAgent o2 raw2).attempts ≤ 2) := by
  constructor
  · show critiqueLoop o (o.transform raw) 0 1 = _
    rw [critiqueLoop_eq, if_pos (route_repair_of _ _ (h _) (by omega)),
        critiqueLoop_eq, if_pos (route_repair_of _ _ (h _) (by omega)),
        critiqueLoop_eq,
        if_neg (fun hr => absurd (route_repair_imp _ _ hr).2 (by omega))]
  · intro o2 raw2
    exact critiqueLoop_attempts_le o2 (o2.transform raw2) 0 1 (by omega)

/-- Witness for C2 at a concrete never-approving oracle. -/
theorem never_approved_two_repairs_witness :
    runAgent nonApprovingOracle "Tomato soup. Boil tomatoes." =
      { final_recipe := sampleRecipe, attempts := 2, generation_calls := 3 } := by
  have h := never_approved_two_repairs nonApprovingOracle
    "Tomato soup. Boil tomatoes."
    (fun _ => show strContains "Instructions are unclear. Add timers." approvedToken = false
      by decide)
  exact h.1

/-- C3: the routing decision after Critique is a pure function of the
critique text and the attempt counter: an "APPROVED" substring routes to
Finalize; otherwise an attempt counter ≥ 2 routes to Finalize; otherwise
to Repair.  A critique of "Everything looks great. APPROVED" makes the
whole run finalize with 0 repairs performed. -/
theorem routing_decision_pure (c : String) (a : Nat) (o : LLMOracle) (raw : String) :
    (strContains c approvedToken = true →
      should_repair_or_finalize c a = "finalize") ∧
    (strContains c approvedToken = false → 2 ≤ a →
      should_repair_or_finalize c a = "finalize") ∧
    (strContains c approvedToken = false → a < 2 →
      should_repair_or_finalize c a = "repair") ∧
    (o.critique (o.transform raw) = "Everything looks great. APPROVED" →
      runAgent o raw =
        { final_recipe := o.transform raw, attempts := 0, generation_calls := 1 }) := by
  refine ⟨route_finalize_of_approved c a, fun h1 h2 => route_finalize_of_attempts c a h2,
          route_repair_of c a, fun hc => ?_⟩
  show critiqueLoop o (o.transform raw) 0 1 = _
  rw [critiqueLoop_eq,
      if_neg (fun hr => absurd (route_repair_imp _ _ hr).1 (by rw [hc]; decide))]

/-- Witness for C3: each routing case at a concrete input, and the
concrete approving run. -/
theorem routing_decision_pure_witness :
    should_repair_or_finalize "Everything looks great. APPROVED" 0 = "finalize" ∧
    should_repair_or_finalize "Step 3 is unclear." 2 = "finalize" ∧
    should_repair_or_finalize "Step 3 is unclear." 0 = "repair" ∧
    runAgent approvingOracle "Greek salad. Chop and mix." =
      { final_recipe := sampleRecipe, attempts := 0, generation_calls := 1 } := by
  refine ⟨(routing_decision_pure _ 0 approvingOracle "x").1 (by decide),
          (routing_decision_pure "Step 3 is unclear." 2 approvingOracle "x").2.1
            (by decide) (by omega),
          (routing_decision_pure "Step 3 is unclear." 0 approvingOracle "x").2.2.1
            (by decide) (by omega),
          (routing_decision_pure "x" 0 approvingOracle "Greek salad. Chop and mix.").2.2.2 rfl⟩

/-- C8: with an empty raw recipe text, the click handler only warns (or
stays idle when the button was not pressed); the agent loop — and hence
the Transform step — is never invoked, whatever the LLM oracle would
answer. -/
theorem empty_input_never_transforms (o : LLMOracle) (tb : Bool) :
    (handle_transform_click o tb "" =
      if tb then UiOutcome.warned "Please paste a recipe first!"
      else UiOutcome.idle "Paste a recipe on the left and click Transform") ∧
    (∀ res, handle_transform_click o tb "" ≠ UiOutcome.rendered res) := by
  constructor
  · unfold handle_transform_click
    cases tb <;> simp
  · intro res
    unfold handle_transform_click
    cases tb <;> simp

/-- Witness for C8 at a concrete oracle with the button pressed. -/
theorem empty_input_never_transforms_witness :
    handle_transform_click approvingOracle true "" =
      UiOutcome.warned "Please paste a recipe first!" :=
  (empty_input_never_transforms approvingOracle true).1

/-! ## Claim theorems: the synonym tables -/

theorem lookupStr_mem (m : List (String × String)) (s t : String)
    (h : lookupStr m s = some t) : (s, t) ∈ m := by
  induction m with
  | nil => simp [lookupStr] at h
  | cons p rest ih =>
    obtain ⟨k, v⟩ := p
    simp only [lookupStr] at h
    by_cases hk : (k == s) = true
    · rw [if_pos hk] at h
      cases h
      rw [beq_iff_eq] at hk
      subst hk
      exact List.mem_cons_self _ _
    · rw [if_neg hk] at h
      exact List.mem_cons_of_mem _ (ih h)

/-- No target of the workplace table is a key of the workplace table. -/
theorem workplace_targets_not_keys :
    workplace_mapping.all (fun p => (lookupStr workplace_mapping p.2).isNone) = true := by
  decide

/-- No target of the difficulty table is a key of the difficulty table. -/
theorem difficulty_targets_not_keys :
    difficulty_mapping.all (fun p => (lookupStr difficulty_mapping p.2).isNone) = true := by
  decide

theorem lookup_target_none (m : List (String × String))
    (hall : m.all (fun p => (lookupStr m p.2).isNone) = true)
    (s t : String) (h : lookupStr m s = some t) : lookupStr m t = none := by
  rw [List.all_eq_true] at hall
  have := hall _ (lookupStr_mem m s t h)
  simpa [Option.isNone_iff_eq_none] using this

theorem fix_workplace_idem (v : Value) :
    fix_workplace (fix_workplace v) = fix_workplace v := by
  cases v <;> try rfl
  case str s =>
    simp only [fix_workplace]
    cases hl : lookupStr workplace_mapping s with
    | none => simp [fix_workplace, hl]
    | some t =>
      have hnone := lookup_target_none _ workplace_targets_not_keys _ _ hl
      simp [fix_workplace, hl, hnone]

theorem fix_difficulty_idem (v : Value) :
    fix_difficulty (fix_difficulty v) = fix_difficulty v := by
  cases v <;> try rfl
  case str s =>
    simp only [fix_difficulty]
    cases hl : lookupStr difficulty_mapping s with
    | none => simp [fix_difficulty, hl]
    | some t =>
      have hnone := lookup_target_none _ difficulty_targets_not_keys _ _ hl
      simp [fix_difficulty, hl, hnone]

/-- C9: both synonym remappings are idempotent, because no target value of
either table is itself a key of that table. -/
theorem synonym_remaps_idempotent :
    (∀ v : Value, fix_workplace (fix_workplace v) = fix_workplace v) ∧
    (∀ v : Value, fix_difficulty (fix_difficulty v) = fix_difficulty v) ∧
    workplace_mapping.all (fun p => (lookupStr workplace_mapping p.2).isNone) = true ∧
    difficulty_mapping.all (fun p => (lookupStr difficulty_mapping p.2).isNone) = true :=
  ⟨fix_workplace_idem, fix_difficulty_idem,
   workplace_targets_not_keys, difficulty_targets_not_keys⟩

/-- Witness for C9 at concrete values. -/
theorem synonym_remaps_idempotent_witness :
    fix_workplace (fix_workplace (Value.str "Wok")) = fix_workplace (Value.str "Wok") ∧
    fix_difficulty (fix_difficulty (Value.str "Moderate")) = fix_difficulty (Value.str "Moderate") :=
  ⟨(synonym_remaps_idempotent).1 (Value.str "Wok"),
   (synonym_remaps_idempotent).2.1 (Value.str "Moderate")⟩

/-! ## Claim theorems: step validation -/

/-- C4: the workplace value is remapped through the synonym table before
the enum check — "Wok" normalizes to "Stove" and the step validates with
workplace `Stove` — while a value that is neither a table key nor an enum
member passes through the remap unchanged and then fails structural
validation, as "Fireplace" does. -/
theorem workplace_remap_before_validation (s : String)
    (hnk : lookupStr workplace_mapping s = none) (hne : parseWorkplace s = none) :
    fix_workplace (Value.str "Wok") = Value.str "Stove" ∧
    RecipeStep.validate (mkStepDict (.str "Wok") false []) =
      .ok (sampleStepRec .Stove false none) ∧
    (fix_workplace (Value.str s) = Value.str s ∧
      validateWorkplaceField (Value.str s) =
        .error "workplace must be one of the allowed values") ∧
    RecipeStep.validate (mkStepDict (.str "Fireplace") false []) =
      .error "workplace must be one of the allowed values" := by
  refine ⟨rfl, rfl, ⟨?_, ?_⟩, rfl⟩
  · simp [fix_workplace, hnk]
  · simp [validateWorkplaceField, fix_workplace, hnk, hne]

/-- Witness for C4 at the unmapped value "Fireplace". -/
theorem workplace_remap_before_validation_witness :
    RecipeStep.validate (mkStepDict (.str "Wok") false []) =
      .ok (sampleStepRec .Stove false none) ∧
    validateWorkplaceField (Value.str "Fireplace") =
      .error "workplace must be one of the allowed values" := by
  have h := workplace_remap_before_validation "Fireplace" (by decide) (by decide)
  exact ⟨h.2.1, h.2.2.1.2⟩

/-- C10: validation imposes no cross-field constraint between `has_timer`
and `timer_minutes`: for every timer flag, an otherwise well-formed step
validates both without a `timer_minutes` key (yielding `none`) and with
one set, for any value; in particular `has_timer = true` with no timer
and `has_timer = false` with a timer are both accepted. -/
theorem has_timer_unconstrained (b : Bool) (t : Rat) :
    RecipeStep.validate (mkStepDict (.str "Stove") true []) =
      .ok (sampleStepRec .Stove true none) ∧
    RecipeStep.validate (mkStepDict (.str "Stove") false [("timer_minutes", .num t)]) =
      .ok (sampleStepRec .Stove false (some t)) ∧
    RecipeStep.validate (mkStepDict (.str "Stove") b []) =
      .ok (sampleStepRec .Stove b none) ∧
    RecipeStep.validate (mkStepDict (.str "Stove") b [("timer_minutes", .num t)]) =
      .ok (sampleStepRec .Stove b (some t)) :=
  ⟨rfl, rfl, rfl, rfl⟩

/-- Witness for C10 at concrete values. -/
theorem has_timer_unconstrained_witness :
    RecipeStep.validate (mkStepDict (.str "Stove") true []) =
      .ok (sampleStepRec .Stove true none) ∧
    RecipeStep.validate (mkStepDict (.str "Stove") false [("timer_minutes", .num 7)]) =
      .ok (sampleStepRec .Stove false (some 7)) :=
  ⟨(has_timer_unconstrained false 7).1, (has_timer_unconstrained false 7).2.1⟩

/-! ## Claim theorems: recipe validation -/

/-- C6 counterexample: a record whose `servings` is `-1` (and whose times
and nutrition values are all negative) passes validation unchanged — the
model declares plain `int`/`float` fields with no sign constraints. -/
theorem negative_numeric_fields_accepted :
    SousChefRecipe.validate (mkRecipeDict (.str "Easy") (.int (-1)) (.int (-5)) (.int (-3))
        [("calories_per_person", .int (-100)), ("protein_g", .num (-2)),
         ("carbs_g", .num (-2)), ("fat_g", .num (-2))]
        [mkStepDict (.str "Cutting board") false []]) =
      .ok (mkRecipeRec .Easy (-1) (-5) (-3) (some (-100)) (some (-2)) (some (-2)) (some (-2))
        [sampleStepRec .CuttingBoard false none]) := rfl

/-- C6 amended: structural validation enforces the declared types of the
numeric fields (a non-integer `servings` fails with a schema error) but
imposes no sign constraints: every integer value of `servings`,
`prep_time_minutes`, `cook_time_minutes` and `calories_per_person` and
every rational value of the nutrition fields — negative ones included —
is accepted. -/
theorem numeric_fields_typed_not_sign_checked (s p c k : Int) (pr cb ft : Rat) :
    SousChefRecipe.validate (mkRecipeDict (.str "Easy") (.int s) (.int p) (.int c)
        [("calories_per_person", .int k), ("protein_g", .num pr),
         ("carbs_g", .num cb), ("fat_g", .num ft)]
        [mkStepDict (.str "Cutting board") false []]) =
      .ok (mkRecipeRec .Easy s p c (some k) (some pr) (some cb) (some ft)
        [sampleStepRec .CuttingBoard false none]) ∧
    SousChefRecipe.validate (mkRecipeDict (.str "Easy") Value.null (.int 10) (.int 25)
        [] [mkStepDict (.str "Cutting board") false []]) =
      .error "expected an integer" :=
  ⟨rfl, rfl⟩

/-- Witness for the amended C6 at concrete values. -/
theorem numeric_fields_typed_not_sign_checked_witness :
    SousChefRecipe.validate (mkRecipeDict (.str "Easy") (.int 4) (.int 10) (.int 25)
        [("calories_per_person", .int 550), ("protein_g", .num 35),
         ("carbs_g", .num 45), ("fat_g", .num 18)]
        [mkStepDict (.str "Cutting board") false []]) =
      .ok (mkRecipeRec .Easy 4 10 25 (some 550) (some 35) (some 45) (some 18)
        [sampleStepRec .CuttingBoard false none]) :=
  (numeric_fields_typed_not_sign_checked 4 10 25 550 35 45 18).1

/-- The difficulty override: it leaves every other field untouched and
writes the difficulty determined by the step count. -/
theorem fix_difficulty_by_steps_spec (rec0 : SousChefRecipe) :
    (fix_difficulty_by_steps rec0).steps = rec0.steps ∧
    (fix_difficulty_by_steps rec0).difficulty =
      (if rec0.steps.length ≤ 6 then .Easy
       else if rec0.steps.length ≤ 11 then .Medium else .Intermediate) := by
  simp only [fix_difficulty_by_steps]
  split_ifs <;> simp

/-- C1: for every record that passes validation, the finalized difficulty
is determined solely by the number of steps — at most 6 gives Easy, 7 to
11 gives Medium, 12 or more gives Intermediate — whatever difficulty the
raw record carried. -/
theorem difficulty_from_step_count (v : Value) (r : SousChefRecipe)
    (h : SousChefRecipe.validate v = .ok r) :
    (r.steps.length ≤ 6 → r.difficulty = .Easy) ∧
    (7 ≤ r.steps.length → r.steps.length ≤ 11 → r.difficulty = .Medium) ∧
    (12 ≤ r.steps.length → r.difficulty = .Intermediate) := by
  unfold SousChefRecipe.validate at h
  cases hf : SousChefRecipe.validate_fields v with
  | error e => rw [hf] at h; exact absurd h (by simp [Except.map])
  | ok rec0 =>
    rw [hf] at h
    simp only [Except.map] at h
    injection h with h
    subst h
    obtain ⟨hsteps, hdiff⟩ := fix_difficulty_by_steps_spec rec0
    rw [hsteps, hdiff]
    refine ⟨fun h1 => ?_, fun h1 h2 => ?_, fun h1 => ?_⟩ <;>
      split_ifs <;> first | rfl | omega

/-! ## Dictionary lemmas for the alias-rename pass -/

theorem dictGet_dictSet_self (d : List (String × Value)) (k : String) (v : Value) :
    dictGet (dictSet d k v) k = some v := by
  induction d with
  | nil => simp [dictSet, dictGet]
  | cons p rest ih =>
    obtain ⟨k1, v1⟩ := p
    simp only [dictSet]
    by_cases h : (k1 == k) = true
    · rw [if_pos h]
      simp [dictGet, h]
    · rw [if_neg h]
      simp only [dictGet]
      rw [if_neg h]
      exact ih

theorem dictGet_dictSet_other (d : List (String × Value)) (k k' : String) (v : Value)
    (h : k' ≠ k) : dictGet (dictSet d k v) k' = dictGet d k' := by
  induction d with
  | nil =>
    simp only [dictSet, dictGet]
    rw [if_neg (by simp only [beq_iff_eq]; exact fun hh => h hh.symm)]
  | cons p rest ih =>
    obtain ⟨k1, v1⟩ := p
    simp only [dictSet]
    by_cases hk : (k1 == k) = true
    · rw [if_pos hk]
      have hkeq : k1 = k := beq_iff_eq.mp hk
      subst hkeq
      have hk1 : (k1 == k') = false := beq_eq_false_iff_ne.mpr (fun hh => h hh.symm)
      simp [dictGet, hk1]
    · rw [if_neg hk]
      simp only [dictGet]
      by_cases hk2 : (k1 == k') = true
      · rw [if_pos hk2, if_pos hk2]
      · rw [if_neg hk2, if_neg hk2]
        exact ih

theorem dictGet_dictErase_self (d : List (String × Value)) (k : String) :
    dictGet (dictErase d k) k = none := by
  induction d with
  | nil => rfl
  | cons p rest ih =>
    obtain ⟨k1, v1⟩ := p
    simp only [dictErase, List.filter_cons]
    by_cases hk : (k1 == k) = true
    · simp only [hk, Bool.not_true, if_neg]
      simpa [dictErase] using ih
    · have hk' : (k1 == k) = false := by simpa using hk
      simp only [hk', Bool.not_false, if_pos]
      simp only [dictGet, hk']
      simpa [dictErase] using ih

theorem dictGet_dictErase_other (d : List (String × Value)) (k k' : String)
    (h : k' ≠ k) : dictGet (dictErase d k) k' = dictGet d k' := by
  induction d with
  | nil => rfl
  | cons p rest ih =>
    obtain ⟨k1, v1⟩ := p
    simp only [dictErase, List.filter_cons]
    by_cases hk : (k1 == k) = true
    · have hkeq : k1 = k := beq_iff_eq.mp hk
      subst hkeq
      have hk1 : (k1 == k') = false := beq_eq_false_iff_ne.mpr (fun hh => h hh.symm)
      simp only [hk, Bool.not_true, if_neg]
      rw [show dictGet ((k1, v1) :: rest) k' = dictGet rest k' by
            simp only [dictGet]; rw [if_neg (by simp [hk1])]]
      simpa [dictErase] using ih
    · have hk' : (k1 == k) = false := by simpa using hk
      simp only [hk', Bool.not_false, if_pos]
      simp only [dictGet]
      by_cases hk2 : (k1 == k') = true
      · rw [if_pos hk2, if_pos hk2]
      · rw [if_neg hk2, if_neg hk2]
        simpa [dictErase] using ih

/-- A rename pass leaves every key other than its two own keys alone. -/
theorem renameStep_get_other (d : List (String × Value)) (old nw k : String)
    (h1 : k ≠ old) (h2 : k ≠ nw) :
    dictGet (renameStep d old nw) k = dictGet d k := by
  unfold renameStep
  split_ifs with hc
  · rw [dictGet_dictSet_other _ _ _ _ h2, dictGet_dictErase_other _ _ _ h1]
  · rfl

/-- When the alias is present and the canonical key absent, the rename
pass moves the alias's value to the canonical key and drops the alias. -/
theorem renameStep_sets (d : List (String × Value)) (old nw : String)
    (hne : old ≠ nw) (h1 : dictContains d old = true) (h2 : dictContains d nw = false) :
    dictGet (renameStep d old nw) nw = dictGet d old ∧
    dictGet (renameStep d old nw) old = none := by
  unfold renameStep
  rw [if_pos (by simp [h1, h2])]
  constructor
  · rw [dictGet_dictSet_self]
    cases hg : dictGet d old with
    | none => simp [dictContains, hg] at h1
    | some val => simp [hg]
  · rw [dictGet_dictSet_other _ _ _ _ hne, dictGet_dictErase_self]

/-- When the canonical key is already present, the rename pass is the
identity. -/
theorem renameStep_skip (d : List (String × Value)) (old nw : String)
    (h : dictContains d nw = true) : renameStep d old nw = d := by
  unfold renameStep
  rw [if_neg (by simp [h])]

/-- C5: the alias pass renames `calories_per_serving` to
`calories_per_person` only when the canonical key is absent; when both
are present, the canonical key's value is kept unchanged. -/
theorem alias_rename_only_when_canonical_absent (d : List (String × Value)) :
    (dictContains d "calories_per_serving" = true →
     dictContains d "calories_per_person" = false →
       dictGet (fix_field_names d) "calories_per_person" =
         dictGet d "calories_per_serving" ∧
       dictGet (fix_field_names d) "calories_per_serving" = none) ∧
    (dictContains d "calories_per_person" = true →
       dictGet (fix_field_names d) "calories_per_person" =
         dictGet d "calories_per_person") := by
  have hu : fix_field_names d = renameStep (renameStep (renameStep
      (renameStep d "calories_per_serving" "calories_per_person")
      "protein_g_per_serving" "protein_g") "carbs_g_per_serving" "carbs_g")
      "fat_g_per_serving" "fat_g" := rfl
  constructor
  · intro h1 h2
    have hs := renameStep_sets d "calories_per_serving" "calories_per_person"
      (by decide) h1 h2
    constructor
    · rw [hu, renameStep_get_other _ _ _ _ (by decide) (by decide),
          renameStep_get_other _ _ _ _ (by decide) (by decide),
          renameStep_get_other _ _ _ _ (by decide) (by decide)]
      exact hs.1
    · rw [hu, renameStep_get_other _ _ _ _ (by decide) (by decide),
          renameStep_get_other _ _ _ _ (by decide) (by decide),
          renameStep_get_other _ _ _ _ (by decide) (by decide)]
      exact hs.2
  · intro h1
    rw [hu, renameStep_get_other _ _ _ _ (by decide) (by decide),
        renameStep_get_other _ _ _ _ (by decide) (by decide),
        renameStep_get_other _ _ _ _ (by decide) (by decide),
        renameStep_skip d _ _ h1]

/-- Witness for C5 at two concrete raw records. -/
theorem alias_rename_only_when_canonical_absent_witness :
    dictGet (fix_field_names [("calories_per_serving", Value.int 500)])
      "calories_per_person" = some (Value.int 500) ∧
    dictGet (fix_field_names [("calories_per_serving", Value.int 500)])
      "calories_per_serving" = none ∧
    dictGet (fix_field_names [("calories_per_serving", Value.int 500),
        ("calories_per_person", Value.int 300)])
      "calories_per_person" = some (Value.int 300) := by
  refine ⟨?_, ?_, ?_⟩
  · exact ((alias_rename_only_when_canonical_absent
      [("calories_per_serving", Value.int 500)]).1 rfl rfl).1
  · exact ((alias_rename_only_when_canonical_absent
      [("calories_per_serving", Value.int 500)]).1 rfl rfl).2
  · exact (alias_rename_only_when_canonical_absent
      [("calories_per_serving", Value.int 500),
       ("calories_per_person", Value.int 300)]).2 rfl

/-! ## Round-trip lemmas -/

theorem Except_bind_ok {ε α β : Type} (a : α) (f : α → Except ε β) :
    (Except.ok a >>= f) = f a := rfl

theorem validateEach_map {α : Type} (f : Value → Except String α) (g : α → Value)
    (h : ∀ a, f (g a) = .ok a) (l : List α) :
    validateEach f (l.map g) = .ok l := by
  induction l with
  | nil => rfl
  | cons a rest ih =>
    simp only [List.map_cons, validateEach, h a, ih, Except_bind_ok]

theorem Ingredient_validate_dump (i : Ingredient) :
    Ingredient.validate i.model_dump = .ok i := by
  obtain ⟨ne, nn, q⟩ := i
  cases q <;> rfl

theorem RecipeStep_validate_dump (s : RecipeStep) :
    RecipeStep.validate s.model_dump = .ok s := by
  obtain ⟨dne, dnn, ae, an, ie, inl, wp, ht, tm, fa⟩ := s
  cases wp <;> cases tm <;> rfl

theorem validateEach_ing (l : List Ingredient) :
    validateEach Ingredient.validate (l.map Ingredient.model_dump) = .ok l :=
  validateEach_map _ _ Ingredient_validate_dump l

theorem validateEach_step (l : List RecipeStep) :
    validateEach RecipeStep.validate (l.map RecipeStep.model_dump) = .ok l :=
  validateEach_map _ _ RecipeStep_validate_dump l

theorem validateDifficultyField_toStr (dd : Difficulty) :
    validateDifficultyField (.str dd.toStr) = .ok dd := by cases dd <;> rfl

theorem decodeOpt_dumpOptInt (x : Option Int) :
    decodeOpt validateInt (dumpOptInt x) = .ok x := by cases x <;> rfl

theorem decodeOpt_dumpOptRat (x : Option Rat) :
    decodeOpt validateFloat (dumpOptRat x) = .ok x := by cases x <;> rfl

/-- A rename pass whose alias key is absent is the identity. -/
theorem renameStep_id_of_old_absent (d : List (String × Value)) (old nw : String)
    (h : dictContains d old = false) : renameStep d old nw = d := by
  unfold renameStep
  rw [if_neg (by simp [h])]

/-- The alias pass is the identity on records that carry none of the
alias keys — such as every serialized recipe. -/
theorem fix_field_names_id (d : List (String × Value))
    (h1 : dictContains d "calories_per_serving" = false)
    (h2 : dictContains d "protein_g_per_serving" = false)
    (h3 : dictContains d "carbs_g_per_serving" = false)
    (h4 : dictContains d "fat_g_per_serving" = false) :
    fix_field_names d = d := by
  have hu : fix_field_names d = renameStep (renameStep (renameStep
      (renameStep d "calories_per_serving" "calories_per_person")
      "protein_g_per_serving" "protein_g") "carbs_g_per_serving" "carbs_g")
      "fat_g_per_serving" "fat_g" := rfl
  rw [hu, renameStep_id_of_old_absent _ _ _ h1, renameStep_id_of_old_absent _ _ _ h2,
      renameStep_id_of_old_absent _ _ _ h3, renameStep_id_of_old_absent _ _ _ h4]

/-- Field validation undoes serialization on every record. -/
theorem SousChefRecipe_validate_fields_dump (r : SousChefRecipe) :
    SousChefRecipe.validate_fields r.model_dump = .ok r := by
  obtain ⟨gne, gnn, rne, rnn, de, dn, diff, srv, ptm, ctm, cal, pro, car, ft, ings, stps⟩ := r
  simp only [SousChefRecipe.model_dump, SousChefRecipe.validate_fields]
  rw [fix_field_names_id _ (by rfl) (by rfl) (by rfl) (by rfl)]
  simp [requireField, optionalField, dictGet, validateStr, validateInt, validateList,
        validateDifficultyField_toStr, decodeOpt_dumpOptInt, decodeOpt_dumpOptRat,
        validateEach_ing, validateEach_step, Except_bind_ok]

/-- The difficulty override written as a single record update. -/
theorem fix_difficulty_by_steps_eq (r : SousChefRecipe) :
    fix_difficulty_by_steps r =
      { r with difficulty := if r.steps.length ≤ 6 then .Easy
          else if r.steps.length ≤ 11 then .Medium else .Intermediate } := by
  simp only [fix_difficulty_by_steps]
  split_ifs <;> rfl

/-- The difficulty override is idempotent: it never changes the step
list it reads the difficulty from. -/
theorem fix_difficulty_by_steps_idem (r : SousChefRecipe) :
    fix_difficulty_by_steps (fix_difficulty_by_steps r) = fix_difficulty_by_steps r := by
  rw [fix_difficulty_by_steps_eq (fix_difficulty_by_steps r), fix_difficulty_by_steps_eq r]

/-- C7: serializing any recipe record produced by validation and parsing
it back through the validator reproduces the identical record. -/
theorem validate_roundtrip (v : Value) (r : SousChefRecipe)
    (h : SousChefRecipe.validate v = .ok r) :
    SousChefRecipe.validate r.model_dump = .ok r := by
  unfold SousChefRecipe.validate at h ⊢
  cases hf : SousChefRecipe.validate_fields v with
  | error e => rw [hf] at h; exact absurd h (by simp [Except.map])
  | ok rec0 =>
    rw [hf] at h
    simp only [Except.map] at h
    injection h with h
    subst h
    rw [SousChefRecipe_validate_fields_dump]
    simp only [Except.map, fix_difficulty_by_steps_idem]

/-- Witness for C7 at a concrete validated recipe. -/
theorem validate_roundtrip_witness :
    SousChefRecipe.validate
      ((mkRecipeRec .Easy 4 10 25 (some 550) (some 35) (some 45) (some 18)
        [sampleStepRec .CuttingBoard false none]).model_dump) =
      .ok (mkRecipeRec .Easy 4 10 25 (some 550) (some 35) (some 45) (some 18)
        [sampleStepRec .CuttingBoard false none]) :=
  validate_roundtrip
    (mkRecipeDict (.str "Easy") (.int 4) (.int 10) (.int 25)
      [("calories_per_person", .int 550), ("protein_g", .num 35),
       ("carbs_g", .num 45), ("fat_g", .num 18)]
      [mkStepDict (.str "Cutting board") false []])
    (mkRecipeRec .Easy 4 10 25 (some 550) (some 35) (some 45) (some 18)
      [sampleStepRec .CuttingBoard false none])
    rfl

/-- Witness for C1: a single-step record submitted with difficulty
"Moderate" finalizes as Easy. -/
theorem difficulty_from_step_count_witness :
    (mkRecipeRec .Easy 4 10 25 (some 550) (some 35) (some 45) (some 18)
      [sampleStepRec .CuttingBoard false none]).difficulty = .Easy :=
  (difficulty_from_step_count
      (mkRecipeDict (.str "Moderate") (.int 4) (.int 10) (.int 25)
        [("calories_per_person", .int 550), ("protein_g", .num 35),
         ("carbs_g", .num 45), ("fat_g", .num 18)]
        [mkStepDict (.str "Cutting board") false []])
      (mkRecipeRec .Easy 4 10 25 (some 550) (some 35) (some 45) (some 18)
        [sampleStepRec .CuttingBoard false none])
      rfl).1 (by decide)

end SousChef
